import Mathlib

/-!
# Verification of the zentral osquery node API

A shallow embedding of `zentral/contrib/osquery/views/api.py` and
`zentral/contrib/osquery/models.py`: the Django ORM tables become lists of
records inside a `Db` state, HTTP handlers become functions from a `Db` and a
parsed request body to an `Except` of a new `Db` and a JSON response, and
external collaborators (event posting, inventory commit, archive building)
become effect fields recorded in the state or in a returned effects record.
-/

namespace Osquery

/-- Python exceptions that the embedded request handlers can raise. -/
inductive PyErr where
  | suspiciousOperation
  | permissionDenied
  | http404
  | integrityError
  | valueError
deriving DecidableEq, Repr

deriving instance DecidableEq for Except

/-! ## Python helpers

`int()` parsing and tuple comparison, with Python semantics: `int` strips
whitespace, accepts an optional sign and requires at least one digit;
tuples compare lexicographically, a proper prefix being smaller. -/

/-- Digit-string to number, `none` when empty or containing a non-digit
(Python `int` raises `ValueError` there). -/
def parsePyDigits : List Char → Option Nat
  | [] => none
  | cs =>
    if cs.all Char.isDigit then
      some (cs.foldl (fun n c => 10 * n + (c.toNat - 48)) 0)
    else
      none

/-- Python `int(s)`: strip whitespace, optional sign, digits. -/
def parsePyInt (s : String) : Option Int :=
  let cs := ((s.data.dropWhile Char.isWhitespace).reverse.dropWhile Char.isWhitespace).reverse
  match cs with
  | '+' :: rest => (parsePyDigits rest).map Int.ofNat
  | '-' :: rest => (parsePyDigits rest).map (fun n => -(n : Int))
  | rest => (parsePyDigits rest).map Int.ofNat

/-- Python `s.split(".")` on character lists. -/
def splitOnDot : List Char → List (List Char)
  | [] => [[]]
  | c :: rest =>
    let tail := splitOnDot rest
    if c = '.' then
      [] :: tail
    else
      match tail with
      | [] => [[c]]
      | t :: ts => (c :: t) :: ts

/-- `tuple(int(v) for v in s.split("."))`: `none` models the `ValueError`
raised by `int` on a non-numeric component. -/
def parseVersionTuple (s : String) : Option (List Int) :=
  ((splitOnDot s.data).map (fun cs => String.mk cs)).mapM parsePyInt

/-- Python tuple `<` on integer tuples (lexicographic, prefix is smaller). -/
def pyListLt : List Int → List Int → Bool
  | [], [] => false
  | [], _ :: _ => true
  | _ :: _, [] => false
  | a :: as, b :: bs => if a < b then true else if b < a then false else pyListLt as bs

/-! ## Platforms (`Platform` enum in models.py) -/

/-- The `Platform` enum members, in declaration order, with their masks. -/
def platformChoices : List (String × Nat) :=
  [("darwin", 0x10), ("freebsd", 0x20), ("linux", 0x08), ("posix", 0x01), ("windows", 0x02)]

/-- `Platform.platforms_from_mask`: members whose bit intersects the mask. -/
def platformsFromMask (mask : Nat) : List String :=
  (platformChoices.filter (fun p => Nat.land p.2 mask != 0)).map Prod.fst

/-! ## Data model (models.py) -/

/-- `EnrolledMachine` row: one per (enrollment, serial_number), unique node key. -/
structure EnrolledMachine where
  pk : Nat := 0
  enrollment : Nat := 0
  serial_number : String := ""
  node_key : String := ""
  osquery_version : Option String := none
  platform_mask : Nat := 0
deriving DecidableEq, Repr

/-- `EnrolledMachine.osquery_version_tuple`: parse the stored version, with
`(0, 0, 0)` for a falsy (missing or empty) version; a non-numeric component
raises `ValueError`, modelled as `none`. -/
def EnrolledMachine.osquery_version_tuple (em : EnrolledMachine) : Option (List Int) :=
  match em.osquery_version with
  | some s => if s = "" then some [0, 0, 0] else parseVersionTuple s
  | none => some [0, 0, 0]

/-- `DistributedQuery` row: frozen sql snapshot plus targeting metadata. -/
structure DistributedQuery where
  pk : Nat := 0
  sql : String := ""
  platforms : List String := []
  minimum_osquery_version : Option String := none
  valid_from : Nat := 0
  valid_until : Option Nat := none
  serial_numbers : List String := []
  tags : List Nat := []
  shard : Nat := 100
deriving DecidableEq, Repr

/-- `DistributedQuery.minimum_osquery_version_tuple`, `(0, 0, 0)` when unset. -/
def DistributedQuery.minimum_osquery_version_tuple (dq : DistributedQuery) : Option (List Int) :=
  match dq.minimum_osquery_version with
  | some s => if s = "" then some [0, 0, 0] else parseVersionTuple s
  | none => some [0, 0, 0]

/-- `DistributedQueryMachine` row: the delivery record pairing a distributed
query (by pk) with a serial number. -/
structure DistributedQueryMachine where
  pk : Nat := 0
  distributed_query : Nat := 0
  serial_number : String := ""
  status : Option Int := none
  error_message : Option String := none
deriving DecidableEq, Repr

/-- `DistributedQueryResult` row: one returned result row. -/
structure DistributedQueryResult where
  distributed_query : Nat := 0
  serial_number : String := ""
  row : String := ""
deriving DecidableEq, Repr

/-- `FileCarvingSession` row. -/
structure FileCarvingSession where
  id : String := ""
  distributed_query : Option Nat := none
  pack_query : Option Nat := none
  serial_number : String := ""
  carve_guid : String := ""
  carve_size : Int := 0
  block_size : Int := 0
  block_count : Int := 0
deriving DecidableEq, Repr

/-- `FileCarvingBlock` row: the saved chunk for one (session, block_id). -/
structure FileCarvingBlock where
  file_carving_session : String := ""
  block_id : Int := 0
  data : String := ""
deriving DecidableEq, Repr

/-- The durable store: one list per table, fresh-pk counters, the clock, and
the archive-build dispatch log (the external task queue). -/
structure Db where
  now : Nat := 0
  enrolled_machines : List EnrolledMachine := []
  next_enrolled_machine_pk : Nat := 1
  distributed_queries : List DistributedQuery := []
  distributed_query_machines : List DistributedQueryMachine := []
  next_dqm_pk : Nat := 1
  distributed_query_results : List DistributedQueryResult := []
  file_carving_sessions : List FileCarvingSession := []
  file_carving_blocks : List FileCarvingBlock := []
  dispatched_archives : List String := []
deriving DecidableEq, Repr

/-! ## Distributed query selection (`DistributedQueryManager`) -/

/-- Modelled from the spec: `zentral.utils.text.shard` is not part of the
sources. Per the spec it is a stable non-cryptographic hash of the
concatenated (serial number, query id) key, reduced modulo 100 with offset 1
so that it lands in `[1, 100]` and depends on that pair only. -/
def strHash32 (s : String) : Nat :=
  s.data.foldl (fun h c => (h * 31 + c.toNat) % 4294967296) 7

/-- Modelled from the spec: the `shard(serial_number, dq.pk)` admission hash,
a deterministic value in `[1, 100]`. -/
def shard (serial_number : String) (pk : Nat) : Nat :=
  strHash32 (serial_number ++ toString pk) % 100 + 1

/-- The shard admission test of `iter_queries_for_enrolled_machine`:
`dq.shard == 100 or shard(serial_number, dq.pk) <= dq.shard`. -/
def shardAdmitted (serial_number : String) (dq : DistributedQuery) : Bool :=
  dq.shard == 100 || decide (shard serial_number dq.pk ≤ dq.shard)

/-- `DistributedQueryManager.active()`: `valid_until` unset or `>= now`,
and `valid_from <= now`. -/
def isActive (now : Nat) (dq : DistributedQuery) : Bool :=
  (match dq.valid_until with
   | none => true
   | some u => decide (now ≤ u)) && decide (dq.valid_from ≤ now)

/-- Array overlap (`platforms__overlap`). -/
def listOverlap (xs ys : List String) : Bool :=
  xs.any (fun x => ys.contains x)

/-- Ordering of candidate queries by primary key (`order_by("pk")`). -/
def dqPkLe (a b : DistributedQuery) : Prop := a.pk ≤ b.pk

instance : DecidableRel dqPkLe := fun a b => Nat.decLe a.pk b.pk

instance : IsTotal DistributedQuery dqPkLe := ⟨fun a b => Nat.le_total a.pk b.pk⟩

instance : IsTrans DistributedQuery dqPkLe := ⟨fun _ _ _ h1 h2 => Nat.le_trans h1 h2⟩

/-- The database-side part of `iter_queries_for_enrolled_machine`: the active
filter, the platform / serial number / tag filters, the exclusion of queries
already delivered to the serial number, ordered by pk. -/
def dbCandidates (db : Db) (em : EnrolledMachine) (tags : List Nat) : List DistributedQuery :=
  (db.distributed_queries.filter (fun dq =>
      isActive db.now dq
      && (dq.platforms.isEmpty || listOverlap dq.platforms (platformsFromMask em.platform_mask))
      && (dq.serial_numbers.isEmpty || dq.serial_numbers.contains em.serial_number)
      && (dq.tags.isEmpty || dq.tags.any (fun t => tags.contains t))
      && !(db.distributed_query_machines.any (fun dqm =>
             dqm.distributed_query == dq.pk && dqm.serial_number == em.serial_number)))
    ).insertionSort dqPkLe

/-- The Python-level body of the generator loop for one candidate: parse the
two version tuples (either parse failure raises `ValueError`), skip the query
when its minimum version is greater than the machine version, then apply the
shard admission test. `ok true` means the candidate is yielded. -/
def selectStep (em : EnrolledMachine) (dq : DistributedQuery) : Except PyErr Bool :=
  match dq.minimum_osquery_version_tuple with
  | none => .error .valueError
  | some mt =>
    match em.osquery_version_tuple with
    | none => .error .valueError
    | some vt =>
      if pyListLt vt mt then .ok false
      else .ok (shardAdmitted em.serial_number dq)

/-- The full generator of `iter_queries_for_enrolled_machine`, run to
exhaustion. -/
def selectGen (em : EnrolledMachine) : List DistributedQuery → Except PyErr (List DistributedQuery)
  | [] => .ok []
  | dq :: rest => do
    let keep ← selectStep em dq
    let tail ← selectGen em rest
    pure (if keep then dq :: tail else tail)

/-- `DistributedQuery.objects.iter_queries_for_enrolled_machine(em, tags)`. -/
def iterQueriesForEnrolledMachine (db : Db) (em : EnrolledMachine) (tags : List Nat) :
    Except PyErr (List DistributedQuery) :=
  selectGen em (dbCandidates db em tags)

/-- `islice(generator, n)`: the generator is only advanced until `n` items
have been yielded, so candidates past the n-th yield are never evaluated. -/
def selectTake (em : EnrolledMachine) : Nat → List DistributedQuery → Except PyErr (List DistributedQuery)
  | _, [] => .ok []
  | 0, _ :: _ => .ok []
  | n + 1, dq :: rest => do
    let keep ← selectStep em dq
    if keep then
      let tail ← selectTake em n rest
      pure (dq :: tail)
    else
      selectTake em (n + 1) rest

/-- The delivery records created by `DistributedReadView.do_node_post` for the
chosen queries, with the consecutive pks that `bulk_create` assigns. -/
def mkDqms (startPk : Nat) (serial : String) : List DistributedQuery →
    List DistributedQueryMachine
  | [] => []
  | q :: rest =>
    { pk := startPk, distributed_query := q.pk, serial_number := serial }
      :: mkDqms (startPk + 1) serial rest

/-- `DistributedReadView.do_node_post` (`batch_size = 10`): select at most 10
queries, persist one `DistributedQueryMachine` per chosen query, and answer
with the map from new delivery pk to the query's sql. -/
def distributedRead (db : Db) (em : EnrolledMachine) (tags : List Nat) :
    Except PyErr (Db × List (Nat × String)) := do
  let chosen ← selectTake em 10 (dbCandidates db em tags)
  let dqms := mkDqms db.next_dqm_pk em.serial_number chosen
  pure ({ db with
            distributed_query_machines := db.distributed_query_machines ++ dqms,
            next_dqm_pk := db.next_dqm_pk + chosen.length },
        (dqms.zip chosen).map (fun p => (p.1.pk, p.2.sql)))

/-! ## File carving (`ContinueFileCarvingView`, `FileCarvingBlock`) -/

/-- The distinct received block indices of a session: the unique constraint on
`(file_carving_session, block_id)` makes the row count of
`FileCarvingBlock.objects.filter(file_carving_session=...)` the distinct count. -/
def distinctBlockCount (db : Db) (sessionId : String) : Nat :=
  db.file_carving_blocks.countP (fun b => b.file_carving_session == sessionId)

/-- Is a block with this index already stored for the session? -/
def blockExists (db : Db) (sessionId : String) (blockId : Int) : Bool :=
  db.file_carving_blocks.any (fun b =>
    b.file_carving_session == sessionId && b.block_id == blockId)

/-- The successful branch of `ContinueFileCarvingView.do_node_post`: store the
block, then report `session_finished` exactly when the session's block count
equals the declared `block_count`, dispatching the archive build on that
transition. -/
def carveStoreBlock (db : Db) (sessionId : String) (blockId : Int) (payload : String)
    (session : FileCarvingSession) : Db × Bool :=
  let blocks := db.file_carving_blocks
    ++ [({ file_carving_session := sessionId, block_id := blockId, data := payload }
          : FileCarvingBlock)]
  let sessionFinished :=
    ((blocks.countP (fun b => b.file_carving_session == sessionId) : Int) == session.block_count)
  ({ db with
       file_carving_blocks := blocks,
       dispatched_archives :=
         if sessionFinished then db.dispatched_archives ++ [sessionId]
         else db.dispatched_archives },
   sessionFinished)

/-- `ContinueFileCarvingView`: `authenticate` loads the session by id
(`PermissionDenied` when unknown); `do_node_post` stores the block
unconditionally (`FileCarvingBlock.objects.create` hits the unique
`(file_carving_session, block_id)` constraint on a duplicate index) and
reports completion via `carveStoreBlock`. Returns the new store and the
`session_finished` flag of the posted carve event. -/
def continueFileCarving (db : Db) (sessionId : String) (blockId : Int) (payload : String) :
    Except PyErr (Db × Bool) :=
  match db.file_carving_sessions.find? (fun s => s.id == sessionId) with
  | none => .error .permissionDenied
  | some session =>
    if blockExists db sessionId blockId then
      .error .integrityError
    else
      .ok (carveStoreBlock db sessionId blockId payload session)

/-! ## Enrollment (`EnrollView.do_post`, `EnrolledMachine`)

The `node_key` default is `get_random_string(32)`; the fresh random string is
passed in as the `nodeKey` argument. `platform_mask` and `osquery_version`
enter the defaults dict only when the request carries a usable value, which
the caller has already parsed into the two `Option` arguments. -/

/-- Apply the `update_or_create` defaults dict to a row: `node_key` is always
set, the two optional defaults only when present. -/
def applyEnrollDefaults (m : EnrolledMachine) (nodeKey : String)
    (platformMask : Option Nat) (version : Option String) : EnrolledMachine :=
  { m with
      node_key := nodeKey,
      platform_mask := platformMask.getD m.platform_mask,
      osquery_version := match version with | some v => some v | none => m.osquery_version }

/-- `EnrolledMachine.objects.update_or_create(enrollment=..., serial_number=...,
defaults=...)`: update the unique matching row, or insert a fresh one. -/
def updateOrCreateEnrolledMachine (db : Db) (enrollment : Nat) (serial : String)
    (nodeKey : String) (platformMask : Option Nat) (version : Option String) :
    Db × EnrolledMachine :=
  match db.enrolled_machines.find? (fun m =>
      m.enrollment == enrollment && m.serial_number == serial) with
  | some m =>
    let m' := applyEnrollDefaults m nodeKey platformMask version
    ({ db with
         enrolled_machines := db.enrolled_machines.map (fun x => if x.pk == m.pk then m' else x) },
     m')
  | none =>
    let m' := applyEnrollDefaults
      { pk := db.next_enrolled_machine_pk, enrollment := enrollment, serial_number := serial }
      nodeKey platformMask version
    ({ db with
         enrolled_machines := db.enrolled_machines ++ [m'],
         next_enrolled_machine_pk := db.next_enrolled_machine_pk + 1 },
     m')

/-- `EnrollView.do_post`: update or create the enrolled machine with a fresh
node key, then delete every other `EnrolledMachine` row with the same serial
number. Answers `{'node_key': ...}`. -/
def enroll (db : Db) (enrollment : Nat) (serial : String) (nodeKey : String)
    (platformMask : Option Nat) (version : Option String) : Db × String :=
  let p := updateOrCreateEnrolledMachine db enrollment serial nodeKey platformMask version
  ({ p.1 with
       enrolled_machines := p.1.enrolled_machines.filter (fun m =>
         m.pk == p.2.pk || m.serial_number != serial) },
   p.2.node_key)

/-- `BaseNodeView.authenticate`: look the machine up by node key,
`PermissionDenied` on an unknown key. -/
def authenticate (db : Db) (nodeKey : String) : Except PyErr EnrolledMachine :=
  match db.enrolled_machines.find? (fun m => m.node_key == nodeKey) with
  | some m => .ok m
  | none => .error .permissionDenied

/-! ## Distributed query results (`DistributedWriteView.do_node_post`) -/

/-- Modelled from the spec: `zentral.utils.json.remove_null_character` is not
part of the sources; it sanitizes a result row by removing null characters
before storage, modelled here on string rows. -/
def removeNullCharacter (s : String) : String :=
  String.mk (s.data.filter (fun c => c != Char.ofNat 0))

/-- One pass of the `while True` insertion loop: pull a batch of at most `n`
rows off the iterator and `bulk_create` it, until the iterator is exhausted.
Structured on a fuel argument so that it computes; `batchInsert` below
instantiates the fuel with the length of the list, which is always enough
because every pass consumes at least one element. -/
def batchInsertFuel (n : Nat) : Nat → List DistributedQueryResult → List DistributedQueryResult →
    List DistributedQueryResult
  | 0, acc, _ => acc
  | _ + 1, acc, [] => acc
  | fuel + 1, acc, x :: xs => batchInsertFuel n fuel (acc ++ (x :: xs.take (n - 1))) (xs.drop (n - 1))

/-- Append the generated rows to the stored table in batches of `n`. -/
def batchInsert (n : Nat) (acc l : List DistributedQueryResult) : List DistributedQueryResult :=
  batchInsertFuel n l.length acc l

/-- `DistributedWriteView.do_node_post` (`batch_size = 100`): collect the
delivery pks referenced by the three request maps, load the known
`DistributedQueryMachine` rows, set each one's status (`999` with a logged
warning when the request carries none) and error message, and insert every
result row of a known delivery as a `DistributedQueryResult` tagged with the
authenticated machine's serial number, in batches of 100. Returns the new
store and the pks warned about for a missing status; unknown pks are
silently skipped. -/
def distributedWrite (db : Db) (serial : String)
    (results : List (Nat × List String)) (statuses : List (Nat × Int))
    (messages : List (Nat × String)) : Db × List Nat :=
  let pkSet := results.map Prod.fst ++ statuses.map Prod.fst ++ messages.map Prod.fst
  if pkSet.isEmpty then (db, [])
  else
    let cache := db.distributed_query_machines.filter (fun d => decide (d.pk ∈ pkSet))
    let updated := db.distributed_query_machines.map (fun d =>
      if d.pk ∈ pkSet then
        { d with
            status := some ((statuses.lookup d.pk).getD 999),
            error_message := messages.lookup d.pk }
      else d)
    let newRows := cache.flatMap (fun d =>
      ((results.lookup d.pk).getD []).map (fun row =>
        { distributed_query := d.distributed_query,
          serial_number := serial,
          row := removeNullCharacter row }))
    ({ db with
         distributed_query_machines := updated,
         distributed_query_results := batchInsert 100 db.distributed_query_results newRows },
     (cache.filter (fun d => (statuses.lookup d.pk).isNone)).map (fun d => d.pk))

/-! ## Log ingestion (`LogView`) -/

/-- Modelled from the spec: `INVENTORY_QUERY_NAME` lives in
`zentral.contrib.osquery.conf`, outside the sources; it is the reserved name
marking a record as an inventory snapshot. -/
def INVENTORY_QUERY_NAME : String := "__zentral_inventory_query__"

/-- The `decorations` object of a log record. -/
structure Decorations where
  serial_number : Option String := none
  version : Option String := none
deriving DecidableEq, Repr

/-- One log record, with the JSON fields the view reads. -/
structure Record where
  name : Option String := none
  unixTime : Option Int := none
  snapshot : Option (List String) := none
  decorations : Option Decorations := none
deriving DecidableEq, Repr

/-- The sort key of `records.sort(key=lambda r: r.get("unixTime", 0))`. -/
def recordKey (r : Record) : Int := r.unixTime.getD 0

/-- The sort relation on records: `unixTime` (missing treated as 0). -/
def recordLe (a b : Record) : Prop := recordKey a ≤ recordKey b

instance : DecidableRel recordLe := fun a b => Int.decLe (recordKey a) (recordKey b)

instance : IsTotal Record recordLe := ⟨fun a b => Int.le_total (recordKey a) (recordKey b)⟩

instance : IsTrans Record recordLe := ⟨fun _ _ _ h1 h2 => Int.le_trans h1 h2⟩

/-- `records.sort(key=lambda r: r.get("unixTime", 0))`: Python's sort is a
stable sort by the key, modelled by a stable insertion sort under `recordLe`. -/
def sortRecords (records : List Record) : List Record :=
  records.insertionSort recordLe

/-- `LogView.process_decorations`: read the decorations of the last record;
on a serial number conflict, post a machine conflict event and return
`{"node_invalid": True}`; otherwise refresh the stored osquery version when
the reported one differs. Returns (response, conflict event posted, new
version to store). -/
def processDecorations (machineSerial : String) (emVersion : Option String)
    (records : List Record) : Option Bool × Bool × Option String :=
  match records.getLast? with
  | none => (none, false, none)
  | some last =>
    let decorations := last.decorations.getD {}
    let serialNumber := decorations.serial_number.getD ""
    if serialNumber != "" && serialNumber != machineSerial then
      (some true, true, none)
    else
      let osqueryVersion := decorations.version.getD ""
      if osqueryVersion != "" && emVersion != some osqueryVersion then
        (none, false, some osqueryVersion)
      else
        (none, false, none)

/-- What `LogView.do_node_post` hands to the external collaborators. -/
structure LogEffects where
  conflictEventPosted : Bool := false
  versionUpdatedTo : Option String := none
  committedSnapshot : Option (List String) := none
  postedResults : Option (List Record) := none
  postedStatusLogs : Option (List Record) := none
  unknownLogTypeLogged : Bool := false
deriving DecidableEq, Repr

/-- The response of the log endpoint: `{}` or `{"node_invalid": True}`. -/
structure LogResponse where
  node_invalid : Option Bool := none
deriving DecidableEq, Repr

/-- `LogView.do_node_post`: sort the records by embedded timestamp, run
`process_decorations` — whose returned response dict is dropped on the floor —
then, for `log_type == "result"`, split off the inventory snapshot records
(the last snapshot wins), commit a truthy snapshot, and post the remaining
records as results; for `log_type == "status"`, post the whole batch;
any other log type is only logged. Always answers `{}`. -/
def logDoNodePost (machineSerial : String) (emVersion : Option String)
    (records : List Record) (logType : Option String) : LogResponse × LogEffects :=
  if records.isEmpty then ({}, {})
  else
    let sorted := sortRecords records
    let deco := processDecorations machineSerial emVersion sorted
    let baseEffects : LogEffects := { conflictEventPosted := deco.2.1, versionUpdatedTo := deco.2.2 }
    if logType = some "result" then
      let results := sorted.filter (fun r => r.name != some INVENTORY_QUERY_NAME)
      let lastInventorySnapshot := sorted.foldl
        (fun acc r => if r.name == some INVENTORY_QUERY_NAME then r.snapshot else acc) none
      let committed := match lastInventorySnapshot with
        | some l => if l.isEmpty then none else some l
        | none => none
      ({}, { baseEffects with committedSnapshot := committed, postedResults := some results })
    else if logType = some "status" then
      ({}, { baseEffects with postedStatusLogs := some sorted })
    else
      ({}, { baseEffects with unknownLogTypeLogged := true })

/-! ## Theorems -/

/-- With enough fuel, inserting in batches appends every generated row:
batch boundaries do not matter. -/
theorem batchInsertFuel_eq_append (n : Nat) :
    ∀ (fuel : Nat) (acc l : List DistributedQueryResult), l.length ≤ fuel →
      batchInsertFuel n fuel acc l = acc ++ l := by
  intro fuel
  induction fuel with
  | zero =>
    intro acc l h
    have hl : l = [] := List.eq_nil_of_length_eq_zero (Nat.le_zero.mp h)
    subst hl
    simp [batchInsertFuel]
  | succ m ih =>
    intro acc l h
    cases l with
    | nil => simp [batchInsertFuel]
    | cons x xs =>
      simp only [batchInsertFuel]
      rw [ih _ _ (by simp [List.length_drop]; simp at h; omega)]
      simp [List.append_assoc]

/-- `batchInsert` is exactly append. -/
theorem batchInsert_eq_append (n : Nat) (acc l : List DistributedQueryResult) :
    batchInsert n acc l = acc ++ l :=
  batchInsertFuel_eq_append n l.length acc l (Nat.le_refl _)

/-- C3: for a carving session with declared `block_count` N, `receive_block`
reports `session_finished = false` while the distinct received index count
stays below N and `true` exactly on the call that brings it to N (the archive
build being dispatched on that transition only); resubmitting an
already-received index raises the uniqueness conflict instead of storing
anything, so it neither changes the distinct count nor re-triggers
completion. -/
theorem carve_receive_block_completion (db : Db) (sessionId : String) (blockId : Int)
    (payload : String) (session : FileCarvingSession)
    (hs : db.file_carving_sessions.find? (fun s => s.id == sessionId) = some session) :
    (blockExists db sessionId blockId = true →
      continueFileCarving db sessionId blockId payload = .error .integrityError)
    ∧ (blockExists db sessionId blockId = false →
      ∃ db' fin, continueFileCarving db sessionId blockId payload = .ok (db', fin)
        ∧ distinctBlockCount db' sessionId = distinctBlockCount db sessionId + 1
        ∧ (fin = true ↔ (distinctBlockCount db sessionId + 1 : Int) = session.block_count)
        ∧ ((distinctBlockCount db sessionId + 1 : Int) = session.block_count →
            db'.dispatched_archives = db.dispatched_archives ++ [sessionId])
        ∧ ((distinctBlockCount db sessionId + 1 : Int) ≠ session.block_count →
            db'.dispatched_archives = db.dispatched_archives)) := by
  constructor
  · intro hdup
    simp [continueFileCarving, hs, hdup]
  · intro hfresh
    have hok : continueFileCarving db sessionId blockId payload
        = .ok (carveStoreBlock db sessionId blockId payload session) := by
      simp [continueFileCarving, hs, hfresh]
    have hcount : distinctBlockCount (carveStoreBlock db sessionId blockId payload session).1 sessionId
        = distinctBlockCount db sessionId + 1 := by
      simp [carveStoreBlock, distinctBlockCount, List.countP_append, List.countP_cons]
    have hfin : (carveStoreBlock db sessionId blockId payload session).2 = true
        ↔ (distinctBlockCount db sessionId + 1 : Int) = session.block_count := by
      simp [carveStoreBlock, distinctBlockCount, List.countP_append, List.countP_cons]
    refine ⟨_, _, hok, hcount, hfin, ?_, ?_⟩
    · intro h
      have h2 : (carveStoreBlock db sessionId blockId payload session).2 = true := hfin.mpr h
      simp only [carveStoreBlock] at h2 ⊢
      simp [h2]
      simpa [distinctBlockCount] using h
    · intro h
      have h2 : (carveStoreBlock db sessionId blockId payload session).2 = false := by
        rw [Bool.eq_false_iff]
        intro hc
        exact h (hfin.mp hc)
      simp only [carveStoreBlock] at h2 ⊢
      simp [h2]
      simpa [distinctBlockCount] using h

/-- Concrete store for the C3 witness: a session `s1` expecting two blocks,
one block already received. -/
def wCarveDb : Db :=
  { file_carving_sessions := [{ id := "s1", serial_number := "SN1", carve_guid := "g",
                                carve_size := 8, block_size := 4, block_count := 2 }],
    file_carving_blocks := [{ file_carving_session := "s1", block_id := 0, data := "aaaa" }] }

theorem carve_receive_block_completion_witness :
    (wCarveDb.file_carving_sessions.find? (fun s => s.id == "s1")
      = some { id := "s1", serial_number := "SN1", carve_guid := "g",
               carve_size := 8, block_size := 4, block_count := 2 })
    ∧ ((blockExists wCarveDb "s1" 0 = true →
        continueFileCarving wCarveDb "s1" 0 "bbbb" = .error .integrityError)
      ∧ (blockExists wCarveDb "s1" 0 = false →
        ∃ db' fin, continueFileCarving wCarveDb "s1" 0 "bbbb" = .ok (db', fin)
          ∧ distinctBlockCount db' "s1" = distinctBlockCount wCarveDb "s1" + 1
          ∧ (fin = true ↔ (distinctBlockCount wCarveDb "s1" + 1 : Int) = 2)
          ∧ ((distinctBlockCount wCarveDb "s1" + 1 : Int) = 2 →
              db'.dispatched_archives = wCarveDb.dispatched_archives ++ ["s1"])
          ∧ ((distinctBlockCount wCarveDb "s1" + 1 : Int) ≠ 2 →
              db'.dispatched_archives = wCarveDb.dispatched_archives))) :=
  ⟨by decide,
   carve_receive_block_completion wCarveDb "s1" 0 "bbbb"
     { id := "s1", serial_number := "SN1", carve_guid := "g",
       carve_size := 8, block_size := 4, block_count := 2 }
     (by decide)⟩

/-- Concrete store for C10: session `s` expects 2 blocks; block index `-3` has
already been received. -/
def cOutDb0 : Db :=
  { file_carving_sessions := [{ id := "s", serial_number := "SN1", carve_guid := "g",
                                carve_size := 8, block_size := 4, block_count := 2 }],
    file_carving_blocks := [{ file_carving_session := "s", block_id := -3, data := "aaaa" }] }

/-- The store after `cOutDb0` additionally receives block index `5`: the
session is reported finished although its indices are `{-3, 5}`. -/
def cOutDb1 : Db :=
  { file_carving_sessions := cOutDb0.file_carving_sessions,
    file_carving_blocks := cOutDb0.file_carving_blocks
      ++ [{ file_carving_session := "s", block_id := 5, data := "bbbbbbbb" }],
    dispatched_archives := ["s"] }

/-- C10: `carve_continue` accepts any integer block index without checking it
against the session's `block_count`, and any payload without checking its size
against `block_size`: a fresh index — negative or `>= block_count` — is stored
and counted; consequently a session with `block_count = 2` is reported
finished by the index set `{-3, 5}`, which is not `{0, 1}`. -/
theorem carve_continue_accepts_any_block_id (db : Db) (sessionId : String) (blockId : Int)
    (payload : String) (session : FileCarvingSession)
    (hs : db.file_carving_sessions.find? (fun s => s.id == sessionId) = some session)
    (hfresh : blockExists db sessionId blockId = false) :
    (∃ db' fin, continueFileCarving db sessionId blockId payload = .ok (db', fin)
      ∧ ({ file_carving_session := sessionId, block_id := blockId, data := payload }
          : FileCarvingBlock) ∈ db'.file_carving_blocks
      ∧ distinctBlockCount db' sessionId = distinctBlockCount db sessionId + 1)
    ∧ (continueFileCarving cOutDb0 "s" 5 "bbbbbbbb" = .ok (cOutDb1, true)
      ∧ cOutDb1.file_carving_blocks.map FileCarvingBlock.block_id = [-3, 5]
      ∧ (∀ s ∈ cOutDb1.file_carving_sessions, s.block_count = 2)
      ∧ ¬ (∀ b ∈ cOutDb1.file_carving_blocks, 0 ≤ b.block_id ∧ b.block_id < 2)) := by
  refine ⟨?_, by decide, by decide, by decide, by decide⟩
  have hok : continueFileCarving db sessionId blockId payload
      = .ok (carveStoreBlock db sessionId blockId payload session) := by
    simp [continueFileCarving, hs, hfresh]
  refine ⟨_, _, hok, ?_, ?_⟩
  · simp [carveStoreBlock]
  · simp [carveStoreBlock, distinctBlockCount, List.countP_append, List.countP_cons]

theorem carve_continue_accepts_any_block_id_witness :
    (cOutDb0.file_carving_sessions.find? (fun s => s.id == "s")
      = some { id := "s", serial_number := "SN1", carve_guid := "g",
               carve_size := 8, block_size := 4, block_count := 2 })
    ∧ blockExists cOutDb0 "s" 5 = false
    ∧ (∃ db' fin, continueFileCarving cOutDb0 "s" 5 "bbbbbbbb" = .ok (db', fin)
      ∧ ({ file_carving_session := "s", block_id := 5, data := "bbbbbbbb" }
          : FileCarvingBlock) ∈ db'.file_carving_blocks
      ∧ distinctBlockCount db' "s" = distinctBlockCount cOutDb0 "s" + 1) :=
  ⟨by decide, by decide,
   (carve_continue_accepts_any_block_id cOutDb0 "s" 5 "bbbbbbbb"
     { id := "s", serial_number := "SN1", carve_guid := "g",
       carve_size := 8, block_size := 4, block_count := 2 }
     (by decide) (by decide)).1⟩

/-- C5: shard admission is a pure deterministic function of the
(serial number, query id, shard percentage) data: the hash lands in
`[1, 100]` and depends only on the (serial number, query id) pair, the
decision never differs between two queries agreeing on id and shard, a query
with `shard == 100` is always admitted, and otherwise admission holds exactly
when the hash is at most the shard percentage. -/
theorem shard_admission_deterministic (sn : String) (q q' : DistributedQuery) :
    (1 ≤ shard sn q.pk ∧ shard sn q.pk ≤ 100)
    ∧ (q.pk = q'.pk → q.shard = q'.shard → shardAdmitted sn q = shardAdmitted sn q')
    ∧ (q.shard = 100 → shardAdmitted sn q = true)
    ∧ (shardAdmitted sn q = true ↔ (q.shard = 100 ∨ shard sn q.pk ≤ q.shard)) := by
  refine ⟨⟨?_, ?_⟩, ?_, ?_, ?_⟩
  · exact Nat.succ_le_succ (Nat.zero_le _)
  · have h := Nat.mod_lt (strHash32 (sn ++ toString q.pk)) (show 0 < 100 by norm_num)
    simp only [shard]
    omega
  · intro h1 h2
    simp [shardAdmitted, h1, h2]
  · intro h
    simp [shardAdmitted, h]
  · simp [shardAdmitted, Bool.or_eq_true, decide_eq_true_iff, beq_iff_eq]

theorem shard_admission_deterministic_witness :
    (1 ≤ shard "SN1" 7 ∧ shard "SN1" 7 ≤ 100)
    ∧ (({ pk := 7, shard := 50 } : DistributedQuery).pk
          = ({ pk := 7, shard := 50, sql := "select 1" } : DistributedQuery).pk →
       ({ pk := 7, shard := 50 } : DistributedQuery).shard
          = ({ pk := 7, shard := 50, sql := "select 1" } : DistributedQuery).shard →
       shardAdmitted "SN1" { pk := 7, shard := 50 }
          = shardAdmitted "SN1" { pk := 7, shard := 50, sql := "select 1" })
    ∧ (({ pk := 7, shard := 50 } : DistributedQuery).shard = 100 →
       shardAdmitted "SN1" { pk := 7, shard := 50 } = true)
    ∧ (shardAdmitted "SN1" { pk := 7, shard := 50 } = true ↔
        (({ pk := 7, shard := 50 } : DistributedQuery).shard = 100
          ∨ shard "SN1" 7 ≤ ({ pk := 7, shard := 50 } : DistributedQuery).shard)) :=
  shard_admission_deterministic "SN1" { pk := 7, shard := 50 } { pk := 7, shard := 50, sql := "select 1" }

/-- C7: `distributed_write` silently skips every referenced delivery id with
no matching `DistributedQueryMachine` (no error, no row created); every known
delivery id has its status set — to the sentinel `999`, with a logged
warning, when the request has no status for it — and its optional error
message recorded; and every result row of a known delivery is appended as a
`DistributedQueryResult` tagged with the authenticated machine's serial
number, regardless of the 100-row batch boundaries. -/
theorem distributed_write_contract (db : Db) (serial : String)
    (results : List (Nat × List String)) (statuses : List (Nat × Int))
    (messages : List (Nat × String)) :
    (distributedWrite db serial results statuses messages).1.distributed_query_machines.length
        = db.distributed_query_machines.length
    ∧ (∀ d ∈ db.distributed_query_machines,
        d.pk ∉ results.map Prod.fst ++ statuses.map Prod.fst ++ messages.map Prod.fst →
        d ∈ (distributedWrite db serial results statuses messages).1.distributed_query_machines)
    ∧ (∀ d ∈ db.distributed_query_machines,
        d.pk ∈ results.map Prod.fst ++ statuses.map Prod.fst ++ messages.map Prod.fst →
        ({ d with
             status := some ((statuses.lookup d.pk).getD 999),
             error_message := messages.lookup d.pk } : DistributedQueryMachine)
          ∈ (distributedWrite db serial results statuses messages).1.distributed_query_machines)
    ∧ (distributedWrite db serial results statuses messages).1.distributed_query_results
        = db.distributed_query_results
          ++ (db.distributed_query_machines.filter (fun d =>
                decide (d.pk ∈ results.map Prod.fst ++ statuses.map Prod.fst
                          ++ messages.map Prod.fst))).flatMap
              (fun d => ((results.lookup d.pk).getD []).map (fun row =>
                ({ distributed_query := d.distributed_query, serial_number := serial,
                   row := removeNullCharacter row } : DistributedQueryResult)))
    ∧ (distributedWrite db serial results statuses messages).2
        = ((db.distributed_query_machines.filter (fun d =>
              decide (d.pk ∈ results.map Prod.fst ++ statuses.map Prod.fst
                        ++ messages.map Prod.fst))).filter
             (fun d => (statuses.lookup d.pk).isNone)).map (fun d => d.pk) := by
  by_cases hempty :
      (results.map Prod.fst ++ statuses.map Prod.fst ++ messages.map Prod.fst).isEmpty = true
  · have h := List.isEmpty_iff.mp hempty
    rw [List.append_eq_nil, List.append_eq_nil] at h
    obtain ⟨⟨hr, hs2⟩, hm⟩ := h
    rw [List.map_eq_nil_iff] at hr hs2 hm
    subst hr; subst hs2; subst hm
    refine ⟨?_, ?_, ?_, ?_, ?_⟩ <;> simp [distributedWrite]
  · refine ⟨?_, ?_, ?_, ?_, ?_⟩
    · simp only [distributedWrite]
      rw [if_neg hempty]
      simp
    · intro d hd hnot
      simp only [distributedWrite]
      rw [if_neg hempty]
      exact List.mem_map.mpr ⟨d, hd, by rw [if_neg hnot]⟩
    · intro d hd hmem
      simp only [distributedWrite]
      rw [if_neg hempty]
      exact List.mem_map.mpr ⟨d, hd, by rw [if_pos hmem]⟩
    · simp only [distributedWrite]
      rw [if_neg hempty]
      exact batchInsert_eq_append 100 _ _
    · simp only [distributedWrite]
      rw [if_neg hempty]

/-- The store for the C7 witness: two delivery records. -/
def wWriteDb : Db :=
  { distributed_query_machines :=
      [{ pk := 1, distributed_query := 11, serial_number := "SN1" },
       { pk := 2, distributed_query := 12, serial_number := "SN1" }] }

/-- The C7 witness request: rows for delivery 1 and for the unknown delivery
5, a status only for delivery 2, an error message for delivery 1. -/
def wWriteResults : List (Nat × List String) := [(1, ["r1", "r2"]), (5, ["zz"])]

def wWriteStatuses : List (Nat × Int) := [(2, 3)]

def wWriteMessages : List (Nat × String) := [(1, "boom")]

theorem distributed_write_contract_witness :
    ({ pk := 1, distributed_query := 11, serial_number := "SN1" } : DistributedQueryMachine)
        ∈ wWriteDb.distributed_query_machines
    ∧ (1 : Nat) ∈ wWriteResults.map Prod.fst ++ wWriteStatuses.map Prod.fst
        ++ wWriteMessages.map Prod.fst
    ∧ ({ pk := 1, distributed_query := 11, serial_number := "SN1",
         status := some ((wWriteStatuses.lookup 1).getD 999),
         error_message := wWriteMessages.lookup 1 } : DistributedQueryMachine)
        ∈ (distributedWrite wWriteDb "SN1" wWriteResults wWriteStatuses
            wWriteMessages).1.distributed_query_machines :=
  ⟨by decide, by decide,
   (distributed_write_contract wWriteDb "SN1" wWriteResults wWriteStatuses wWriteMessages).2.2.1
     { pk := 1, distributed_query := 11, serial_number := "SN1" } (by decide) (by decide)⟩

/-- A result record of the C1 batch. -/
def cPlainRecord : Record := { name := some "q1", unixTime := some 10 }

/-- An inventory snapshot record of the C1 batch. -/
def cInventoryRecord : Record :=
  { name := some INVENTORY_QUERY_NAME, unixTime := some 20, snapshot := some ["row1"] }

/-- The last record of the C1 batch, decorated with the conflicting serial
number `SN1`. -/
def cConflictRecord : Record :=
  { name := some "q2", unixTime := some 30,
    decorations := some { serial_number := some "SN1", version := some "5.0.0" } }

/-- The C1 log batch. -/
def cConflictBatch : List Record := [cPlainRecord, cInventoryRecord, cConflictRecord]

/-- C1 (code bug): for a result batch whose trailing decorations report serial
number `SN1` under a session authenticated as `SN2`, `process_decorations`
does build the `{"node_invalid": True}` response (and posts the machine
conflict event), but `do_node_post` drops that return value: the endpoint
answers `{}` and still commits the inventory snapshot and forwards the
result records. -/
theorem log_serial_conflict_response_dropped :
    processDecorations "SN2" (some "4.9.9") (sortRecords cConflictBatch) = (some true, true, none)
    ∧ logDoNodePost "SN2" (some "4.9.9") cConflictBatch (some "result")
        = ({ node_invalid := none },
           { conflictEventPosted := true,
             versionUpdatedTo := none,
             committedSnapshot := some ["row1"],
             postedResults := some [cPlainRecord, cConflictRecord],
             postedStatusLogs := none,
             unknownLogTypeLogged := false }) := by
  constructor
  · decide
  · decide

/-- C9 counterexample: two records tied on `unixTime` keep their
agent-supplied relative order (Python's sort is stable), so the processing
order is not independent of the supplied order. -/
def cTieA : Record := { name := some "a", unixTime := some 1 }

def cTieB : Record := { name := some "b", unixTime := some 1 }

theorem sort_not_order_independent :
    [cTieA, cTieB].Perm [cTieB, cTieA]
    ∧ sortRecords [cTieA, cTieB] ≠ sortRecords [cTieB, cTieA] := by
  constructor
  · decide
  · decide

/-- C9 (amended): every ingested batch is sorted stably by the embedded
`unixTime` key before processing — a missing timestamp is treated as key 0 —
the sorted batch being a permutation of the input, sorted under `recordLe`;
ties (equal keys, including missing-vs-zero) retain the agent-supplied
relative order, so the processing order is independent of the supplied order
only up to records with equal timestamps. -/
theorem log_records_sorted_stably (machineSerial : String) (emVersion : Option String)
    (records : List Record) (a b : Record) :
    (records.isEmpty = false →
      (logDoNodePost machineSerial emVersion records (some "status")).2.postedStatusLogs
        = some (sortRecords records))
    ∧ (sortRecords records).Sorted recordLe
    ∧ (sortRecords records).Perm records
    ∧ (∀ r : Record, r.unixTime = none → recordKey r = 0)
    ∧ (recordLe a b → List.Sublist [a, b] records → List.Sublist [a, b] (sortRecords records)) := by
  refine ⟨?_, ?_, ?_, ?_, ?_⟩
  · intro hne
    simp [logDoNodePost, hne]
  · exact List.sorted_insertionSort recordLe records
  · exact List.perm_insertionSort recordLe records
  · intro r h
    simp [recordKey, h]
  · intro hab hsub
    exact List.pair_sublist_insertionSort hab hsub

theorem log_records_sorted_stably_witness :
    (([cTieA, cTieB].isEmpty = false →
      (logDoNodePost "SN1" none [cTieA, cTieB] (some "status")).2.postedStatusLogs
        = some (sortRecords [cTieA, cTieB]))
    ∧ (sortRecords [cTieA, cTieB]).Sorted recordLe
    ∧ (sortRecords [cTieA, cTieB]).Perm [cTieA, cTieB]
    ∧ (∀ r : Record, r.unixTime = none → recordKey r = 0)
    ∧ (recordLe cTieA cTieB → List.Sublist [cTieA, cTieB] [cTieA, cTieB]
        → List.Sublist [cTieA, cTieB] (sortRecords [cTieA, cTieB]))) :=
  log_records_sorted_stably "SN1" none [cTieA, cTieB] cTieA cTieB

/-- Every query yielded by the full generator passed its per-candidate check
and came from the candidate list. -/
theorem selectGen_mem (em : EnrolledMachine) :
    ∀ (cands l : List DistributedQuery), selectGen em cands = .ok l →
      ∀ dq ∈ l, selectStep em dq = .ok true ∧ dq ∈ cands := by
  intro cands
  induction cands with
  | nil =>
    intro l h dq hdq
    simp only [selectGen] at h
    cases h
    simp at hdq
  | cons c rest ih =>
    intro l h dq hdq
    simp only [selectGen, bind, Except.bind] at h
    cases hc : selectStep em c with
    | error e => rw [hc] at h; cases h
    | ok keep =>
      rw [hc] at h
      cases hr : selectGen em rest with
      | error e => rw [hr] at h; cases h
      | ok tail =>
        rw [hr] at h
        simp only [pure, Except.pure, Except.ok.injEq] at h
        subst h
        cases keep with
        | true =>
          simp at hdq
          rcases hdq with heq | htail
          · subst heq
            exact ⟨hc, List.mem_cons_self _ _⟩
          · rcases ih tail hr dq htail with ⟨h1, h2⟩
            exact ⟨h1, List.mem_cons_of_mem _ h2⟩
        | false =>
          simp at hdq
          rcases ih tail hr dq hdq with ⟨h1, h2⟩
          exact ⟨h1, List.mem_cons_of_mem _ h2⟩

/-- The machine used in the C4 scenarios, reporting the given version. -/
def cGateMachine (v : Option String) : EnrolledMachine :=
  { pk := 1, enrollment := 1, serial_number := "SN1", node_key := "k1", osquery_version := v }

/-- The C4 query: minimum osquery version `5.0.0`, otherwise unrestricted. -/
def cGateQuery : DistributedQuery :=
  { pk := 1, sql := "select 1", minimum_osquery_version := some "5.0.0" }

def cGateDb : Db := { distributed_queries := [cGateQuery] }

/-- C4 counterexample: a machine whose reported version `4.9.9p1` does not
parse is not treated as `(0, 0, 0)`: `osquery_version_tuple` raises
`ValueError` (no tuple at all), and the selection run against it fails with
`ValueError` instead of quietly filtering the query out. -/
theorem version_gate_unparsable_counterexample :
    (cGateMachine (some "4.9.9p1")).osquery_version_tuple ≠ some [0, 0, 0]
    ∧ ¬ ∃ l, iterQueriesForEnrolledMachine cGateDb (cGateMachine (some "4.9.9p1")) [] = .ok l := by
  constructor
  · decide
  · intro ⟨l, hl⟩
    have : iterQueriesForEnrolledMachine cGateDb (cGateMachine (some "4.9.9p1")) []
        = .error .valueError := by decide
    rw [this] at hl
    cases hl

/-- C4 (amended): a distributed query is selected only when its
minimum-version tuple is `<=` the machine's version tuple, where a missing
(falsy) machine version is treated as `(0, 0, 0)` and therefore fails any
non-zero minimum, while an unparsable machine version raises `ValueError`
instead of being treated as `(0, 0, 0)`; in particular the query with
minimum version `5.0.0` is not selected for a machine reporting `4.9.9` or
no version, and is selected for machines reporting `5.0.0` or `5.1.0`. -/
theorem version_gate (db : Db) (em : EnrolledMachine) (tags : List Nat)
    (l : List DistributedQuery) :
    (iterQueriesForEnrolledMachine db em tags = .ok l →
      ∀ dq ∈ l, ∃ mt vt, dq.minimum_osquery_version_tuple = some mt
        ∧ em.osquery_version_tuple = some vt ∧ pyListLt vt mt = false)
    ∧ ((em.osquery_version = none ∨ em.osquery_version = some "") →
        em.osquery_version_tuple = some [0, 0, 0])
    ∧ iterQueriesForEnrolledMachine cGateDb (cGateMachine (some "4.9.9")) [] = .ok []
    ∧ iterQueriesForEnrolledMachine cGateDb (cGateMachine none) [] = .ok []
    ∧ iterQueriesForEnrolledMachine cGateDb (cGateMachine (some "5.0.0")) [] = .ok [cGateQuery]
    ∧ iterQueriesForEnrolledMachine cGateDb (cGateMachine (some "5.1.0")) [] = .ok [cGateQuery] := by
  refine ⟨?_, ?_, by decide, by decide, by decide, by decide⟩
  · intro h dq hdq
    have hstep := (selectGen_mem em _ l h dq hdq).1
    unfold selectStep at hstep
    cases hmt : dq.minimum_osquery_version_tuple with
    | none => simp [hmt] at hstep
    | some mt =>
      cases hvt : em.osquery_version_tuple with
      | none => simp [hmt, hvt] at hstep
      | some vt =>
        simp only [hmt, hvt] at hstep
        refine ⟨mt, vt, rfl, rfl, ?_⟩
        by_cases hlt : pyListLt vt mt = true
        · simp [hlt] at hstep
        · rw [Bool.eq_false_iff]
          exact hlt
  · intro h
    rcases h with h | h <;> simp [EnrolledMachine.osquery_version_tuple, h]

theorem version_gate_witness :
    iterQueriesForEnrolledMachine cGateDb (cGateMachine (some "5.0.0")) [] = .ok [cGateQuery]
    ∧ (∀ dq ∈ [cGateQuery], ∃ mt vt, dq.minimum_osquery_version_tuple = some mt
        ∧ (cGateMachine (some "5.0.0")).osquery_version_tuple = some vt
        ∧ pyListLt vt mt = false) :=
  ⟨by decide,
   (version_gate cGateDb (cGateMachine (some "5.0.0")) [] [cGateQuery]).1 (by decide)⟩

/-- The budgeted selection yields a sublist of the candidates, of length at
most the budget. -/
theorem selectTake_sublist_length (em : EnrolledMachine) :
    ∀ (cands : List DistributedQuery) (n : Nat) (l : List DistributedQuery),
      selectTake em n cands = .ok l → List.Sublist l cands ∧ l.length ≤ n := by
  intro cands
  induction cands with
  | nil =>
    intro n l h
    cases n with
    | zero =>
      simp only [selectTake] at h
      cases h
      exact ⟨List.nil_sublist _, Nat.le_refl 0⟩
    | succ m =>
      simp only [selectTake] at h
      cases h
      exact ⟨List.nil_sublist _, Nat.zero_le _⟩
  | cons c rest ih =>
    intro n l h
    cases n with
    | zero =>
      simp only [selectTake] at h
      cases h
      exact ⟨List.nil_sublist _, Nat.le_refl 0⟩
    | succ m =>
      simp only [selectTake, bind, Except.bind] at h
      cases hc : selectStep em c with
      | error e => rw [hc] at h; cases h
      | ok keep =>
        rw [hc] at h
        cases keep with
        | true =>
          simp only [reduceIte] at h
          cases hr : selectTake em m rest with
          | error e => rw [hr] at h; cases h
          | ok tail =>
            rw [hr] at h
            simp only [pure, Except.pure, Except.ok.injEq] at h
            subst h
            rcases ih m tail hr with ⟨hs, hl⟩
            exact ⟨List.Sublist.cons₂ c hs, Nat.succ_le_succ hl⟩
        | false =>
          simp only [Bool.false_eq_true, reduceIte] at h
          rcases ih (m + 1) l h with ⟨hs, hl⟩
          exact ⟨List.Sublist.cons c hs, hl⟩

/-- A candidate passed the database-side filters, in particular the
not-already-delivered exclusion. -/
theorem dbCandidates_not_delivered (db : Db) (em : EnrolledMachine) (tags : List Nat)
    (dq : DistributedQuery) (h : dq ∈ dbCandidates db em tags) :
    db.distributed_query_machines.any (fun dqm =>
      dqm.distributed_query == dq.pk && dqm.serial_number == em.serial_number) = false := by
  unfold dbCandidates at h
  rw [List.mem_insertionSort] at h
  have hp := List.of_mem_filter h
  simp only [Bool.and_eq_true, Bool.not_eq_true'] at hp
  exact hp.2

/-- The candidate list is sorted by primary key. -/
theorem dbCandidates_sorted (db : Db) (em : EnrolledMachine) (tags : List Nat) :
    (dbCandidates db em tags).Sorted dqPkLe :=
  List.sorted_insertionSort dqPkLe _

/-- The pks of the candidate list stay distinct when the stored queries have
distinct pks. -/
theorem nodup_pk_insertionSort_filter (qs : List DistributedQuery) (p : DistributedQuery → Bool)
    (h : (qs.map DistributedQuery.pk).Nodup) :
    ((List.insertionSort dqPkLe (qs.filter p)).map DistributedQuery.pk).Nodup := by
  have hperm : (List.insertionSort dqPkLe (qs.filter p)).Perm (qs.filter p) :=
    List.perm_insertionSort dqPkLe _
  refine (hperm.map DistributedQuery.pk).nodup_iff.mpr ?_
  exact List.Nodup.sublist ((qs.filter_sublist).map DistributedQuery.pk) h

theorem dbCandidates_nodup (db : Db) (em : EnrolledMachine) (tags : List Nat)
    (hnodup : (db.distributed_queries.map DistributedQuery.pk).Nodup) :
    ((dbCandidates db em tags).map DistributedQuery.pk).Nodup :=
  nodup_pk_insertionSort_filter _ _ hnodup

/-- Shape of each created delivery record. -/
theorem mem_mkDqms (serial : String) :
    ∀ (chosen : List DistributedQuery) (startPk : Nat) (d : DistributedQueryMachine),
      d ∈ mkDqms startPk serial chosen →
      d.serial_number = serial ∧ ∃ q ∈ chosen, d.distributed_query = q.pk := by
  intro chosen
  induction chosen with
  | nil =>
    intro startPk d h
    simp [mkDqms] at h
  | cons q rest ih =>
    intro startPk d h
    rcases List.mem_cons.mp h with heq | htail
    · subst heq
      exact ⟨rfl, q, List.mem_cons_self _ _, rfl⟩
    · rcases ih (startPk + 1) d htail with ⟨h1, q', hq', h2⟩
      exact ⟨h1, q', List.mem_cons_of_mem _ hq', h2⟩

/-- One delivery record per chosen query. -/
theorem mkDqms_length (serial : String) :
    ∀ (chosen : List DistributedQuery) (startPk : Nat),
      (mkDqms startPk serial chosen).length = chosen.length := by
  intro chosen
  induction chosen with
  | nil => intro startPk; rfl
  | cons q rest ih =>
    intro startPk
    simp [mkDqms, ih (startPk + 1)]

/-- Unpack a successful `distributed_read`. -/
theorem distributedRead_ok (db : Db) (em : EnrolledMachine) (tags : List Nat) (db' : Db)
    (resp : List (Nat × String)) (h : distributedRead db em tags = .ok (db', resp)) :
    ∃ chosen, selectTake em 10 (dbCandidates db em tags) = .ok chosen
      ∧ db' = { db with
                  distributed_query_machines := db.distributed_query_machines
                    ++ mkDqms db.next_dqm_pk em.serial_number chosen,
                  next_dqm_pk := db.next_dqm_pk + chosen.length }
      ∧ resp = ((mkDqms db.next_dqm_pk em.serial_number chosen).zip chosen).map
          (fun p => (p.1.pk, p.2.sql)) := by
  unfold distributedRead at h
  cases hc : selectTake em 10 (dbCandidates db em tags) with
  | error e =>
    rw [hc] at h
    cases h
  | ok chosen =>
    rw [hc] at h
    simp only [bind, Except.bind, pure, Except.pure, Except.ok.injEq, Prod.mk.injEq] at h
    exact ⟨chosen, rfl, h.1.symm, h.2.symm⟩

/-- C2: a query already recorded as delivered to a serial number is never
selected for it again: if two `distributed_read` calls run back to back with
no new queries created in between, no query delivered by the first call is
delivered again by the second. -/
theorem distributed_read_idempotent (db : Db) (em : EnrolledMachine) (tags : List Nat)
    (db1 db2 : Db) (resp1 resp2 : List (Nat × String))
    (h1 : distributedRead db em tags = .ok (db1, resp1))
    (h2 : distributedRead db1 em tags = .ok (db2, resp2)) :
    ∀ d1 ∈ db1.distributed_query_machines.drop db.distributed_query_machines.length,
    ∀ d2 ∈ db2.distributed_query_machines.drop db1.distributed_query_machines.length,
      d1.distributed_query ≠ d2.distributed_query := by
  obtain ⟨c1, hc1, hdb1, hresp1⟩ := distributedRead_ok db em tags db1 resp1 h1
  obtain ⟨c2, hc2, hdb2, hresp2⟩ := distributedRead_ok db1 em tags db2 resp2 h2
  intro d1 hd1 d2 hd2 heq
  rw [hdb1] at hd1
  rw [hdb2] at hd2
  simp only [List.drop_left] at hd1 hd2
  have hd1mem : d1 ∈ db1.distributed_query_machines := by
    rw [hdb1]
    exact List.mem_append_right _ hd1
  rcases mem_mkDqms em.serial_number c1 db.next_dqm_pk d1 hd1 with ⟨hs1, q1, hq1, hdq1⟩
  rcases mem_mkDqms em.serial_number c2 db1.next_dqm_pk d2 hd2 with ⟨hs2, q2, hq2, hdq2⟩
  have hq2cand : q2 ∈ dbCandidates db1 em tags :=
    (selectTake_sublist_length em _ 10 c2 hc2).1.mem hq2
  have hnotdel := dbCandidates_not_delivered db1 em tags q2 hq2cand
  rw [List.any_eq_false] at hnotdel
  apply hnotdel d1 hd1mem
  rw [Bool.and_eq_true, beq_iff_eq, beq_iff_eq]
  exact ⟨heq.trans hdq2, hs1⟩

/-- C6: `distributed_read` answers at most the hard-coded limit of 10
queries, chosen in strictly ascending query-id order, and the returned store
already holds one new `DistributedQueryMachine` per answered query bearing
the machine's serial number. -/
theorem distributed_read_contract (db : Db) (em : EnrolledMachine) (tags : List Nat)
    (db' : Db) (resp : List (Nat × String))
    (hnodup : (db.distributed_queries.map DistributedQuery.pk).Nodup)
    (h : distributedRead db em tags = .ok (db', resp)) :
    resp.length ≤ 10
    ∧ (∃ chosen, selectTake em 10 (dbCandidates db em tags) = .ok chosen
        ∧ chosen.Pairwise (fun a b => a.pk < b.pk)
        ∧ db'.distributed_query_machines = db.distributed_query_machines
            ++ mkDqms db.next_dqm_pk em.serial_number chosen
        ∧ (mkDqms db.next_dqm_pk em.serial_number chosen).length = resp.length)
    ∧ (∀ pr ∈ resp, ∃ dqm ∈ db'.distributed_query_machines,
        dqm.pk = pr.1 ∧ dqm.serial_number = em.serial_number) := by
  obtain ⟨chosen, hc, hdb, hresp⟩ := distributedRead_ok db em tags db' resp h
  obtain ⟨hsub, hlen⟩ := selectTake_sublist_length em _ 10 chosen hc
  have hresplen : resp.length = chosen.length := by
    rw [hresp, List.length_map, List.length_zip, mkDqms_length]
    exact Nat.min_self _
  refine ⟨?_, ⟨chosen, hc, ?_, ?_, ?_⟩, ?_⟩
  · rw [hresplen]; exact hlen
  · have hle : chosen.Pairwise dqPkLe := (dbCandidates_sorted db em tags).sublist hsub
    have hne : chosen.Pairwise (fun a b => a.pk ≠ b.pk) := by
      have h2 := List.Nodup.sublist (hsub.map DistributedQuery.pk)
        (dbCandidates_nodup db em tags hnodup)
      exact List.pairwise_map.mp h2
    exact (hle.and hne).imp (fun h => Nat.lt_of_le_of_ne h.1 h.2)
  · rw [hdb]
  · rw [mkDqms_length, hresplen]
  · intro pr hpr
    rw [hresp] at hpr
    rcases List.mem_map.mp hpr with ⟨p, hp, heq⟩
    have hmem := List.of_mem_zip hp
    refine ⟨p.1, ?_, ?_, ?_⟩
    · rw [hdb]
      exact List.mem_append_right _ hmem.1
    · rw [← heq]
    · exact (mem_mkDqms em.serial_number chosen db.next_dqm_pk p.1 hmem.1).1

/-- One eligible query for the selection witnesses. -/
def wSelQuery : DistributedQuery := { pk := 1, sql := "select 1" }

def wSelEm : EnrolledMachine :=
  { pk := 1, enrollment := 1, serial_number := "SN1", node_key := "k1" }

def wSelDb : Db := { distributed_queries := [wSelQuery] }

/-- `wSelDb` after one `distributed_read`: the query is delivered. -/
def wSelDb1 : Db :=
  { wSelDb with
      distributed_query_machines := [{ pk := 1, distributed_query := 1, serial_number := "SN1" }],
      next_dqm_pk := 2 }

theorem distributed_read_idempotent_witness :
    distributedRead wSelDb wSelEm [] = .ok (wSelDb1, [(1, "select 1")])
    ∧ distributedRead wSelDb1 wSelEm [] = .ok (wSelDb1, [])
    ∧ ∀ d1 ∈ wSelDb1.distributed_query_machines.drop
        wSelDb.distributed_query_machines.length,
      ∀ d2 ∈ wSelDb1.distributed_query_machines.drop
        wSelDb1.distributed_query_machines.length,
        d1.distributed_query ≠ d2.distributed_query :=
  ⟨by decide, by decide,
   distributed_read_idempotent wSelDb wSelEm [] wSelDb1 wSelDb1 [(1, "select 1")] []
     (by decide) (by decide)⟩

theorem distributed_read_contract_witness :
    ([(1, "select 1")] : List (Nat × String)).length ≤ 10
    ∧ (∃ chosen, selectTake wSelEm 10 (dbCandidates wSelDb wSelEm []) = .ok chosen
        ∧ chosen.Pairwise (fun a b => a.pk < b.pk)
        ∧ wSelDb1.distributed_query_machines = wSelDb.distributed_query_machines
            ++ mkDqms wSelDb.next_dqm_pk wSelEm.serial_number chosen
        ∧ (mkDqms wSelDb.next_dqm_pk wSelEm.serial_number chosen).length
            = ([(1, "select 1")] : List (Nat × String)).length)
    ∧ (∀ pr ∈ ([(1, "select 1")] : List (Nat × String)),
        ∃ dqm ∈ wSelDb1.distributed_query_machines,
          dqm.pk = pr.1 ∧ dqm.serial_number = wSelEm.serial_number) :=
  distributed_read_contract wSelDb wSelEm [] wSelDb1 [(1, "select 1")]
    (by decide) (by decide)

/-- A list of machines with distinct pks holds exactly one row with a pk it
contains. -/
theorem countP_pk_eq_one :
    ∀ (l : List EnrolledMachine) (pk0 : Nat),
      (l.map EnrolledMachine.pk).Nodup → (∃ m ∈ l, m.pk = pk0) →
      l.countP (fun x => x.pk == pk0) = 1 := by
  intro l
  induction l with
  | nil =>
    intro pk0 _ hmem
    rcases hmem with ⟨m, hm, _⟩
    simp at hm
  | cons a rest ih =>
    intro pk0 hnodup hmem
    rw [List.map_cons, List.nodup_cons] at hnodup
    by_cases ha : a.pk = pk0
    · rw [List.countP_cons_of_pos _ _ (by simp [ha])]
      have hzero : rest.countP (fun x => x.pk == pk0) = 0 := by
        rw [List.countP_eq_zero]
        intro x hx
        simp only [beq_iff_eq]
        intro hcontra
        exact hnodup.1 (ha ▸ hcontra ▸ List.mem_map_of_mem EnrolledMachine.pk hx)
      rw [hzero]
    · rw [List.countP_cons_of_neg _ _ (by simp [ha])]
      rcases hmem with ⟨m, hm, hmpk⟩
      rcases List.mem_cons.mp hm with rfl | hmrest
      · exact absurd hmpk ha
      · exact ih pk0 hnodup.2 ⟨m, hmrest, hmpk⟩

/-- Counting through a map-then-filter, given a pointwise account of the
composite predicate. -/
theorem countP_map_filter_eq (f : EnrolledMachine → EnrolledMachine)
    (g p q : EnrolledMachine → Bool) :
    ∀ (l : List EnrolledMachine), (∀ x ∈ l, (p (f x) && g (f x)) = q x) →
      ((l.map f).filter g).countP p = l.countP q := by
  intro l
  induction l with
  | nil => intro _; rfl
  | cons a rest ih =>
    intro h
    have hrest := ih (fun x hx => h x (List.mem_cons_of_mem a hx))
    have ha := h a (List.mem_cons_self a rest)
    simp only [List.map_cons, List.filter_cons]
    by_cases hg : g (f a) = true
    · rw [if_pos hg]
      by_cases hp : p (f a) = true
      · rw [List.countP_cons_of_pos _ _ hp, hrest,
          List.countP_cons_of_pos _ _ (by rw [← ha, hp, hg]; rfl)]
      · have hpf : p (f a) = false := Bool.eq_false_iff.mpr hp
        rw [List.countP_cons_of_neg _ _ hp, hrest,
          List.countP_cons_of_neg _ _ (by rw [← ha, hpf]; simp)]
    · have hgf : g (f a) = false := Bool.eq_false_iff.mpr hg
      rw [if_neg hg, hrest,
        List.countP_cons_of_neg _ _ (by rw [← ha, hgf]; simp)]

/-- What one `enroll` call leaves behind: the caller gets the fresh node key
back, exactly one row for the enrolled serial number survives, that row
carries the fresh node key, and rows of other serial numbers are untouched
existing rows. -/
theorem enroll_spec (db : Db) (e : Nat) (sn t : String) (pm : Option Nat) (v : Option String)
    (hpk : ∀ m ∈ db.enrolled_machines, m.pk < db.next_enrolled_machine_pk)
    (hnodup : (db.enrolled_machines.map EnrolledMachine.pk).Nodup) :
    (enroll db e sn t pm v).2 = t
    ∧ (enroll db e sn t pm v).1.enrolled_machines.countP
        (fun m => m.serial_number == sn) = 1
    ∧ (∀ m ∈ (enroll db e sn t pm v).1.enrolled_machines,
        m.serial_number = sn → m.node_key = t)
    ∧ (∀ m ∈ (enroll db e sn t pm v).1.enrolled_machines,
        m.serial_number ≠ sn → m ∈ db.enrolled_machines) := by
  cases hf : db.enrolled_machines.find? (fun m => m.enrollment == e && m.serial_number == sn) with
  | some m =>
    have hmmem : m ∈ db.enrolled_machines := List.mem_of_find?_eq_some hf
    have hpred := List.find?_some hf
    rw [Bool.and_eq_true, beq_iff_eq, beq_iff_eq] at hpred
    simp only [enroll, updateOrCreateEnrolledMachine, hf]
    refine ⟨rfl, ?_, ?_, ?_⟩
    · rw [countP_map_filter_eq _ _ _ (fun x => x.pk == m.pk) db.enrolled_machines ?_]
      · exact countP_pk_eq_one db.enrolled_machines m.pk hnodup ⟨m, hmmem, rfl⟩
      · intro x _
        by_cases hxpk : x.pk = m.pk
        · simp [hxpk, applyEnrollDefaults, hpred.2]
        · simp only [beq_iff_eq, hxpk, if_false, decide_eq_true_eq]
          simp only [applyEnrollDefaults]
          cases hxs : x.serial_number == sn with
          | true => simp [hxs, hxpk, beq_iff_eq.mp hxs]
          | false => simp [hxs, hxpk]
    · intro mm hmm hsn
      rcases List.mem_filter.mp hmm with ⟨hmm2, hg⟩
      rcases List.mem_map.mp hmm2 with ⟨x, hx, hfx⟩
      by_cases hxpk : x.pk = m.pk
      · rw [if_pos (by simpa using hxpk)] at hfx
        rw [← hfx]
        rfl
      · rw [if_neg (by simpa using hxpk)] at hfx
        subst hfx
        rw [Bool.or_eq_true] at hg
        rcases hg with hg | hg
        · rw [beq_iff_eq] at hg
          exact absurd (by simpa [applyEnrollDefaults] using hg) hxpk
        · rw [bne_iff_ne] at hg
          exact absurd hsn hg
    · intro mm hmm hsn
      rcases List.mem_filter.mp hmm with ⟨hmm2, _⟩
      rcases List.mem_map.mp hmm2 with ⟨x, hx, hfx⟩
      by_cases hxpk : x.pk = m.pk
      · rw [if_pos (by simpa using hxpk)] at hfx
        exact absurd (by rw [← hfx]; exact hpred.2) hsn
      · rw [if_neg (by simpa using hxpk)] at hfx
        subst hfx
        exact hx
  | none =>
    simp only [enroll, updateOrCreateEnrolledMachine, hf]
    have hnewpk : (applyEnrollDefaults
        { pk := db.next_enrolled_machine_pk, enrollment := e, serial_number := sn }
        t pm v).pk = db.next_enrolled_machine_pk := rfl
    refine ⟨rfl, ?_, ?_, ?_⟩
    · rw [List.filter_append, List.countP_append, List.countP_filter]
      have hl : db.enrolled_machines.countP (fun x =>
          (x.serial_number == sn)
            && ((x.pk == (applyEnrollDefaults
                  { pk := db.next_enrolled_machine_pk, enrollment := e, serial_number := sn }
                  t pm v).pk)
                || (x.serial_number != sn))) = 0 := by
        rw [List.countP_eq_zero]
        intro x hx
        rw [hnewpk]
        have hxpk : (x.pk == db.next_enrolled_machine_pk) = false := by
          have := hpk x hx
          simp only [beq_eq_false_iff_ne]
          omega
        rw [hxpk]
        cases hxs : x.serial_number == sn with
        | true => simp [hxs, beq_iff_eq.mp hxs]
        | false => simp [hxs]
      rw [hl]
      simp [applyEnrollDefaults]
    · intro mm hmm hsn
      rcases List.mem_filter.mp hmm with ⟨hmm2, hg⟩
      rcases List.mem_append.mp hmm2 with hx | hx
      · rw [Bool.or_eq_true] at hg
        rcases hg with hg | hg
        · rw [beq_iff_eq, hnewpk] at hg
          exact absurd (hg ▸ hpk mm hx) (Nat.lt_irrefl _)
        · rw [bne_iff_ne] at hg
          exact absurd hsn hg
      · rcases List.mem_singleton.mp hx with rfl
        rfl
    · intro mm hmm hsn
      rcases List.mem_filter.mp hmm with ⟨hmm2, _⟩
      rcases List.mem_append.mp hmm2 with hx | hx
      · exact hx
      · rcases List.mem_singleton.mp hx with rfl
        exact absurd rfl hsn

/-- C8: enrolling the same hardware serial number twice hands out two
different (fresh) node keys, leaves exactly one live `EnrolledMachine` row
for that serial number — carrying the second key — and the first node key no
longer authenticates. -/
theorem enroll_twice_takeover (db : Db) (e1 e2 : Nat) (sn t1 t2 : String)
    (pm1 pm2 : Option Nat) (v1 v2 : Option String) (db1 db2 : Db) (k1 k2 : String)
    (hpk : ∀ m ∈ db.enrolled_machines, m.pk < db.next_enrolled_machine_pk)
    (hnodup : (db.enrolled_machines.map EnrolledMachine.pk).Nodup)
    (hfresh : ∀ m ∈ db.enrolled_machines, m.node_key ≠ t1)
    (hne : t1 ≠ t2)
    (h1 : enroll db e1 sn t1 pm1 v1 = (db1, k1))
    (h2 : enroll db1 e2 sn t2 pm2 v2 = (db2, k2))
    (hpk1 : ∀ m ∈ db1.enrolled_machines, m.pk < db1.next_enrolled_machine_pk)
    (hnodup1 : (db1.enrolled_machines.map EnrolledMachine.pk).Nodup) :
    k1 = t1 ∧ k2 = t2 ∧ k1 ≠ k2
    ∧ db2.enrolled_machines.countP (fun m => m.serial_number == sn) = 1
    ∧ (∃ m ∈ db2.enrolled_machines, m.serial_number = sn ∧ m.node_key = t2)
    ∧ authenticate db2 t1 = .error .permissionDenied := by
  obtain ⟨hk1, hcnt1, hkey1, hother1⟩ := enroll_spec db e1 sn t1 pm1 v1 hpk hnodup
  obtain ⟨hk2, hcnt2, hkey2, hother2⟩ := enroll_spec db1 e2 sn t2 pm2 v2 hpk1 hnodup1
  simp only [h1] at hk1 hcnt1 hkey1 hother1
  simp only [h2] at hk2 hcnt2 hkey2 hother2
  have hnokey : ∀ x ∈ db2.enrolled_machines, x.node_key ≠ t1 := by
    intro x hx hkey
    by_cases hxs : x.serial_number = sn
    · exact hne ((hkey ▸ (hkey2 x hx hxs)).symm).symm
    · exact hfresh x (hother1 x (hother2 x hx hxs) hxs) hkey
  have hex : ∃ m ∈ db2.enrolled_machines, m.serial_number = sn ∧ m.node_key = t2 := by
    have hpos : 0 < db2.enrolled_machines.countP (fun m => m.serial_number == sn) := by
      rw [hcnt2]
      exact Nat.zero_lt_one
    rcases List.countP_pos_iff.mp hpos with ⟨m, hm, hpm⟩
    rw [beq_iff_eq] at hpm
    exact ⟨m, hm, hpm, hkey2 m hm hpm⟩
  refine ⟨hk1, hk2, ?_, hcnt2, hex, ?_⟩
  · rw [hk1, hk2]
    exact hne
  · have hnone : db2.enrolled_machines.find? (fun m => m.node_key == t1) = none := by
      rw [List.find?_eq_none]
      intro x hx
      rw [beq_iff_eq]
      exact hnokey x hx
    simp [authenticate, hnone]

def wEnrollDb1 : Db :=
  { enrolled_machines :=
      [{ pk := 1, enrollment := 1, serial_number := "SN1", node_key := "tok1" }],
    next_enrolled_machine_pk := 2 }

def wEnrollDb2 : Db :=
  { enrolled_machines :=
      [{ pk := 1, enrollment := 1, serial_number := "SN1", node_key := "tok2" }],
    next_enrolled_machine_pk := 2 }

theorem enroll_twice_takeover_witness :
    ("tok1" : String) = "tok1" ∧ ("tok2" : String) = "tok2"
    ∧ ("tok1" : String) ≠ "tok2"
    ∧ wEnrollDb2.enrolled_machines.countP (fun m => m.serial_number == "SN1") = 1
    ∧ (∃ m ∈ wEnrollDb2.enrolled_machines, m.serial_number = "SN1" ∧ m.node_key = "tok2")
    ∧ authenticate wEnrollDb2 "tok1" = .error .permissionDenied :=
  enroll_twice_takeover {} 1 1 "SN1" "tok1" "tok2" none none none none wEnrollDb1 wEnrollDb2
    "tok1" "tok2" (by decide) (by decide) (by decide) (by decide) (by decide) (by decide)
    (by decide) (by decide)

example : parseVersionTuple "5.0.0" = some [5, 0, 0] := by decide

example : parseVersionTuple "4.9.9p1" = none := by decide

example : pyListLt [4, 9, 9] [5, 0, 0] = true := by decide

example : pyListLt [5, 1, 0] [5, 0, 0] = false := by decide

example : platformsFromMask 0x10 = ["darwin"] := by decide

end Osquery
